import Mathlib

/-!
A shallow embedding of `dive/patterns.py`, a continuation-passing structural
pattern matcher, together with proofs about its matching, backtracking and
error-conversion behaviour.

The matcher is stateful (variable bindings, `matched_once` closure cells) and
may raise exceptions, so the embedding runs in a state-and-exception monad in
which an exception preserves the state at the raise point, as in Python.
-/

/-- Python exception kinds relevant to the matcher.  `Match.unify` catches
exactly `IndexError`, `KeyError` and `AttributeError`; `typeError` stands in
for every other (uncaught) fault class. -/
inductive PyErr where
  | indexError
  | keyError
  | attributeError
  | typeError
deriving DecidableEq

/-- The three fault classes listed in the `except` clause of `Match.unify`. -/
def PyErr.isSoft : PyErr → Bool
  | .indexError => true
  | .keyError => true
  | .attributeError => true
  | .typeError => false

/-- Python values under match: scalars, sequences and attribute-carrying
objects. -/
inductive Value where
  | none
  | bool (b : Bool)
  | int (n : Int)
  | str (s : String)
  | list (xs : List Value)
  | obj (fields : List (String × Value))

/-- Python `==` on the embedded values (structural equality). -/
def pyEq : Value → Value → Bool
  | .none, .none => true
  | .bool a, .bool b => a == b
  | .int a, .int b => a == b
  | .str a, .str b => a == b
  | .list [], .list [] => true
  | .list (a :: as), .list (b :: bs) => pyEq a b && pyEq (.list as) (.list bs)
  | .obj [], .obj [] => true
  | .obj ((n, a) :: as), .obj ((m, b) :: bs) =>
      n == m && pyEq a b && pyEq (.obj as) (.obj bs)
  | _, _ => false

/-- The mutable fields of a `Variable`: `bound` and `value` (`value` is
`None` while unbound, as `__init__` and `unbind` both set it). -/
structure VarState where
  bound : Bool
  value : Value

/-- The pattern tree.  Constructors mirror the `Unifiable` subclasses:
`Anything`, `Nothing`, `Constant`, `Variable` (identified by its `id`),
`And`, `Or`, `Match` (here `matchP`), `Ensure`, `MatchAny` and `MatchAll`.
A caller-supplied extractor may fail with a `PyErr` (a raised exception);
a caller-supplied condition is a boolean function on values. -/
inductive Pattern where
  | anything
  | nothing
  | constant (value : Value)
  | var (id : Nat)
  | and (first second : Pattern)
  | or (first second : Pattern)
  | matchP (match_ : Value → Except PyErr Value) (into : Pattern)
  | ensure (match_ : Value → Bool) (into : Pattern)
  | matchAny (must_exist only_once : Bool) (into : Pattern)
  | matchAll (into : Pattern)

/-- Observations recorded by the user continuations used in the theorems
below: invocations of the success continuation (with a snapshot of one
variable's state) and of the failure continuation (with the reported
sub-pattern and failing value). -/
inductive Entry where
  | succ (snap : VarState)
  | fail (p : Pattern) (v : Value)

/-- The mutable machine state: variable states (`Variable.bound`/`value`,
indexed by `Variable.id`), boolean closure cells (the `matched_once` lists
allocated by `MatchAny.unify`), a fresh-cell allocator, and the observation
trace written by user continuations. -/
structure St where
  vars : Nat → VarState
  cells : Nat → Bool
  nextCell : Nat
  trace : List Entry

/-- The evaluation monad: state plus Python-style exceptions (an exception
carries the state at the raise point onward; nothing is rolled back). -/
def M (α : Type) : Type := St → Except PyErr α × St

instance : Monad M where
  pure a := fun s => (.ok a, s)
  bind m f := fun s =>
    match m s with
    | (.ok a, s') => f a s'
    | (.error e, s') => (.error e, s')

def getVar (i : Nat) : M VarState := fun s => (.ok (s.vars i), s)

def setVar (i : Nat) (x : VarState) : M Unit :=
  fun s => (.ok (), { s with vars := Function.update s.vars i x })

def newCell : M Nat :=
  fun s => (.ok s.nextCell,
    { s with nextCell := s.nextCell + 1,
             cells := Function.update s.cells s.nextCell false })

def setCell (c : Nat) (b : Bool) : M Unit :=
  fun s => (.ok (), { s with cells := Function.update s.cells c b })

def readCell (c : Nat) : M Bool := fun s => (.ok (s.cells c), s)

def pushTrace (e : Entry) : M Unit :=
  fun s => (.ok (), { s with trace := s.trace ++ [e] })

/-- Evaluate a pure Python expression that may raise. -/
def liftE (r : Except PyErr α) : M α := fun s => (r, s)

def throwE (e : PyErr) : M α := fun s => (.error e, s)

/-- `try body except (IndexError, KeyError, AttributeError): handler`:
catch exactly the soft faults, re-raise everything else.  The handler runs
from the state at the raise point. -/
def catchSoft (m handler : M Unit) : M Unit := fun s =>
  match m s with
  | (.error e, s') => if e.isSoft then handler s' else (.error e, s')
  | r => r

@[simp] theorem run_bind (m : M α) (f : α → M β) (s : St) :
    (m >>= f) s = match m s with
      | (.ok a, s') => f a s'
      | (.error e, s') => (.error e, s') := rfl

@[simp] theorem run_pure (a : α) (s : St) : (pure a : M α) s = (.ok a, s) := rfl

@[simp] theorem run_getVar (i : Nat) (s : St) : getVar i s = (.ok (s.vars i), s) := rfl

@[simp] theorem run_setVar (i : Nat) (x : VarState) (s : St) :
    setVar i x s = (.ok (), { s with vars := Function.update s.vars i x }) := rfl

@[simp] theorem run_newCell (s : St) :
    newCell s = (.ok s.nextCell,
      { s with nextCell := s.nextCell + 1,
               cells := Function.update s.cells s.nextCell false }) := rfl

@[simp] theorem run_setCell (c : Nat) (b : Bool) (s : St) :
    setCell c b s = (.ok (), { s with cells := Function.update s.cells c b }) := rfl

@[simp] theorem run_readCell (c : Nat) (s : St) : readCell c s = (.ok (s.cells c), s) := rfl

@[simp] theorem run_pushTrace (e : Entry) (s : St) :
    pushTrace e s = (.ok (), { s with trace := s.trace ++ [e] }) := rfl

@[simp] theorem run_liftE (r : Except PyErr α) (s : St) : liftE r s = (r, s) := rfl

@[simp] theorem run_throwE (e : PyErr) (s : St) : (throwE e : M α) s = (.error e, s) := rfl

/-- Python iteration (`for entry in value`): lists yield their elements,
strings their characters; any other value raises `TypeError`. -/
def elementsE : Value → Except PyErr (List Value)
  | .list xs => .ok xs
  | .str s => .ok (s.toList.map fun c => .str (String.singleton c))
  | _ => .error .typeError

/-- `getattr(value, name)`: attribute lookup on an object, `AttributeError`
when the field (or any attribute support) is missing. -/
def getattrE (name : String) : Value → Except PyErr Value
  | .obj fields =>
      match fields.lookup name with
      | some v => .ok v
      | Option.none => .error .attributeError
  | _ => .error .attributeError

/-- `value[index]`: sequence indexing with Python's negative-index rule,
`IndexError` when out of range, `TypeError` on non-indexable values or
non-integer indices. -/
def getitemE (ix : Value) : Value → Except PyErr Value
  | .list xs =>
      match ix with
      | .int i =>
          let n : Int := xs.length
          let j : Int := if i < 0 then i + n else i
          if 0 ≤ j ∧ j < n then .ok (xs.getD j.toNat .none) else .error .indexError
      | _ => .error .typeError
  | _ => .error .typeError

/-- `fail_silent`: the default failure continuation, a no-op. -/
def fail_silent : Pattern → Value → M Unit := fun _ _ => pure ()

/-- The `for entry in value` loop of `MatchAny.unify`, abstracted over the
sub-matcher `u` (the `self.into.unify` call): match each element with the
wrapped continuation `cont` and `fail_silent`, and break once `only_once`
holds and the `matched_once` cell `c` has been set. -/
def anyLoop (u : Value → M Unit → (Pattern → Value → M Unit) → M Unit)
    (only_once : Bool) (c : Nat) (cont : M Unit) : List Value → M Unit
  | [] => pure ()
  | e :: rest => do
      u e cont fail_silent
      let m ← readCell c
      if only_once && m then pure () else anyLoop u only_once c cont rest

/-- The `for entry in value` loop of `MatchAll.unify`.  Its body evaluates
`self.each.unify(...)`, but `MatchAll.__init__` stores the sub-pattern as
`self.into` and never defines `each`, so the first iteration raises
`AttributeError` before unifying anything; on an empty collection the loop
body never runs and the method returns without invoking any continuation. -/
def matchAllLoop : List Value → M Unit
  | [] => pure ()
  | _ :: _ => throwE .attributeError

/-- `unify(value, cont, fail)`: the matcher, one case per `Unifiable`
subclass, translated clause by clause from the source. -/
def Pattern.unify : Pattern → Value → M Unit → (Pattern → Value → M Unit) → M Unit
  | .anything, _, k, _ => k
  | .nothing, v, _, f => f .nothing v
  | .constant c, v, k, f => if pyEq v c then k else f (.constant c) v
  | .var i, v, k, f => do
      let st ← getVar i
      if st.bound then
        if pyEq v st.value then k else f (.var i) v
      else do
        setVar i ⟨true, v⟩        -- bind_to(value)
        k
        setVar i ⟨false, .none⟩   -- unbind(): backtrack after continuation returned
  | .and a b, v, k, f => a.unify v (b.unify v k f) f
  | .or a b, v, k, f => a.unify v k (fun _ _ => b.unify v k f)
  | .matchP g into, v, k, f =>
      catchSoft (do
          let w ← liftE (g v)
          into.unify w k f)
        (f (.matchP g into) v)
  | .ensure p into, v, k, f => if p v then k else f (.ensure p into) v
  | .matchAny me oo into, v, k, f => do
      let c ← newCell                    -- matched_once = []
      let es ← liftE (elementsE v)
      anyLoop into.unify oo c (do setCell c true; k) es
      if me then do
        let m ← readCell c
        if m then pure () else f (.matchAny me oo into) v
      else pure ()
  | .matchAll into, v, k, f => do
      let es ← liftE (elementsE v)
      matchAllLoop es

/-- `Return = Anything()`, the unit of the chaining operator. -/
def Return : Pattern := .anything

/-- The `PatternMonad` subclasses: the chainable (value-transform and
quantifier) patterns, plus `Variable`, which is also chainable. -/
inductive PatternMonad where
  | attribute (name : String)
  | subtype (isinst : Value → Bool)
  | index (ix : Value)
  | get (extractor : Value → Except PyErr Value)
  | ifP (condition : Value → Bool)
  | any (must_exist only_once : Bool)
  | all
  | var (id : Nat)

/-- The `bind` method of each `PatternMonad` subclass (the meaning of
`self ** other`). -/
def PatternMonad.bind : PatternMonad → Pattern → Pattern
  | .attribute name, b => .matchP (getattrE name) b
  | .subtype isinst, b => .ensure isinst b
  | .index ix, b => .matchP (getitemE ix) b
  | .get f, b => .matchP f b
  | .ifP c, b => .ensure c b
  | .any me oo, b => .matchAny me oo b
  | .all, b => .matchAll b
  | .var i, b => .and (.var i) b

/-- Terminal use of a chainable pattern: `PatternMonad.unify` dispatches to
`self.bind(Return).unify`, except that `Variable` overrides `unify`
directly. -/
def PatternMonad.unify : PatternMonad → Value → M Unit → (Pattern → Value → M Unit) → M Unit
  | .var i, v, k, f => (Pattern.var i).unify v k f
  | c, v, k, f => (c.bind Return).unify v k f

/-- The derived quantifiers. -/
def Some' : PatternMonad := .any true false
def First : PatternMonad := .any true true
def Each : PatternMonad := .any false false

/-- A success continuation recording a snapshot of variable `i`. -/
def logSucc (i : Nat) : M Unit := do
  let st ← getVar i
  pushTrace (.succ st)

/-- A failure continuation recording the reported sub-pattern and value. -/
def logFail : Pattern → Value → M Unit := fun p v => pushTrace (.fail p v)

/-- The store at the start of a fresh top-level match: all variables
unbound with `value = None` (as `Variable.__init__` leaves them), no cells,
empty trace. -/
def s0 : St := ⟨fun _ => ⟨false, .none⟩, fun _ => false, 0, []⟩

/-- The predicate "< 3" of the worked quantifier example. -/
def lt3 : Value → Bool := fun v => match v with
  | .int n => decide (n < 3)
  | _ => false

/-- The predicate "< 0" of the worked quantifier example. -/
def lt0 : Value → Bool := fun v => match v with
  | .int n => decide (n < 0)
  | _ => false

/-- Claim C1: against the claim, the guard patterns built by `Ensure`
(`If(p) ** var`, `Subtype(t) ** var`) never match their continuation
pattern: on a passing value the success continuation is invoked directly
and the variable stays unbound (`bound = false`, `value = None`); only the
failing half of the claim (predicate false ⇒ `onFailure(self, value)`)
holds.  This run evaluates the code at the failing input `If(< 3) ** var`
on the value `1`. -/
theorem c1_guard_drops_continuation :
    Pattern.unify (.ensure lt3 (.var 0)) (.int 1) (logSucc 0) logFail s0
      = (.ok (), { s0 with trace := [.succ ⟨false, .none⟩] })
    ∧ Pattern.unify (.ensure lt3 (.var 0)) (.int 5) (logSucc 0) logFail s0
      = (.ok (), { s0 with trace := [.fail (.ensure lt3 (.var 0)) (.int 5)] }) :=
  ⟨rfl, rfl⟩

/-- Claim C2: against the claim, `MatchAll.unify` does not iterate and
report element failures through `onFailure`: its loop body looks up
`self.each`, an attribute `MatchAll` never defines, so matching `All`
(here `MatchAll(Anything)`) against the non-empty collection `[1]` raises
`AttributeError` to the caller of `match` and invokes neither
continuation. -/
theorem c2_matchall_raises :
    Pattern.unify (.matchAll .anything) (.list [.int 1]) (logSucc 0) logFail s0
      = (.error .attributeError, s0) :=
  rfl

/-- Claim C5: against the claim, the quantifier runs on `[1, 2, 3, 4]`
with `If(< 3) ** var` invoke `onSuccess` the claimed number of times
(`First` once, `Some` twice) but with the variable unbound
(`bound = false`, `value = None`) instead of bound to `1` (then `2`),
because `Ensure.unify` never matches its continuation pattern. -/
theorem c5_quantifier_run :
    (Pattern.unify (.matchAny true true (.ensure lt3 (.var 0)))
        (.list [.int 1, .int 2, .int 3, .int 4]) (logSucc 0) logFail s0).2.trace
      = [.succ ⟨false, .none⟩]
    ∧ (Pattern.unify (.matchAny true false (.ensure lt3 (.var 0)))
        (.list [.int 1, .int 2, .int 3, .int 4]) (logSucc 0) logFail s0).2.trace
      = [.succ ⟨false, .none⟩, .succ ⟨false, .none⟩] :=
  ⟨rfl, rfl⟩

/-- Claim C7: short-circuit laws.  For every sub-pattern `X`, every value
and both continuations, `Conjunction(Nothing, X)` has exactly the outcome
of `Nothing` alone, and `Disjunction(Anything, X)` has exactly the outcome
of `Anything` alone — in particular the outcome never depends on `X`, so
`X` is never evaluated. -/
theorem c7_short_circuit (X : Pattern) (v : Value) (k : M Unit)
    (f : Pattern → Value → M Unit) :
    Pattern.unify (.and .nothing X) v k f = Pattern.unify .nothing v k f
    ∧ Pattern.unify (.or .anything X) v k f = Pattern.unify .anything v k f :=
  ⟨rfl, rfl⟩

/-- Claim C8: terminal use of any chainable pattern (`PatternMonad.unify`,
including `Variable`, which overrides `unify`) behaves identically to
matching the chained pattern `P ** Anything` (that is,
`P.bind(Return)`). -/
theorem c8_terminal_appends_anything (c : PatternMonad) (v : Value)
    (k : M Unit) (f : Pattern → Value → M Unit) :
    PatternMonad.unify c v k f = Pattern.unify (c.bind Return) v k f := by
  cases c <;> rfl

/-- Claim C3, counterexample: in `Disjunction(Conjunction(var, Nothing),
Anything)` matched against `42`, the failure arises inside `var`'s success
continuation, so branch B (`Anything`) is attempted — and B's `onSuccess`
runs — while `var` is still bound to `42`: A's binding has not been
unwound when B is attempted. -/
theorem c3_counterexample :
    (Pattern.unify (.or (.and (.var 0) .nothing) .anything)
        (.int 42) (logSucc 0) logFail s0).2.trace
      = [.succ ⟨true, .int 42⟩] :=
  rfl

/-- Claim C4, counterexample: when a non-soft fault (here `TypeError` from
a caller-supplied extractor) propagates through the success continuation
that followed a variable's binding, `Variable.unify` never reaches its
`unbind()` call: the fault escapes the `match` call with the variable
still bound to `42`. -/
theorem c4_counterexample :
    Pattern.unify (.and (.var 0) (.matchP (fun _ => .error .typeError) .anything))
        (.int 42) (logSucc 0) logFail s0
      = (.error .typeError,
         { s0 with vars := Function.update s0.vars 0 ⟨true, .int 42⟩ }) :=
  rfl

/-- Claim C10, counterexample: a match call that returns normally can leave
a previously-unbound variable bound with its last value.  Here
`Get(identity) ** (var & All ** Anything)` on `[1]` binds the variable,
then the broken `MatchAll` raises `AttributeError`, which skips `unbind()`
and is swallowed by the `except` clause of `Match.unify`; the call returns
normally with the variable still `bound = true`, `value = [1]`. -/
theorem c10_counterexample :
    (Pattern.unify (.matchP (fun w => .ok w) (.and (.var 0) (.matchAll .anything)))
        (.list [.int 1]) (logSucc 0) logFail s0).1 = .ok ()
    ∧ (Pattern.unify (.matchP (fun w => .ok w) (.and (.var 0) (.matchAll .anything)))
        (.list [.int 1]) (logSucc 0) logFail s0).2.vars 0 = ⟨true, .list [.int 1]⟩ :=
  ⟨rfl, rfl⟩

/-- Claim C6: the extraction patterns (`Get`, and the derived `Attribute`
and `Index`, all of which build `Match`) convert exactly the three soft
lookup faults — `IndexError`, `KeyError`, `AttributeError` — raised by the
caller-supplied extractor into `onFailure(self, value)`; any other fault
raised by the extractor propagates uncaught past the `match` call. -/
theorem c6_soft_faults (g : Value → Except PyErr Value) (into : Pattern)
    (v : Value) (k : M Unit) (f : Pattern → Value → M Unit) (e : PyErr)
    (hg : g v = .error e) :
    (e.isSoft = true →
      Pattern.unify (.matchP g into) v k f = f (.matchP g into) v)
    ∧ (e.isSoft = false →
      ∀ s, Pattern.unify (.matchP g into) v k f s = (.error e, s)) := by
  constructor
  · intro hs
    funext s
    simp [Pattern.unify, catchSoft, hg, hs]
  · intro hs s
    simp [Pattern.unify, catchSoft, hg, hs]

/-- Witness for C6 at the concrete soft fault `KeyError`. -/
theorem c6_soft_faults_witness :
    Pattern.unify (.matchP (fun _ => Except.error .keyError) .anything)
        (.int 0) (logSucc 0) logFail
      = logFail (.matchP (fun _ => Except.error .keyError) .anything) (.int 0) :=
  (c6_soft_faults (fun _ => Except.error .keyError) .anything (.int 0)
    (logSucc 0) logFail .keyError rfl).1 rfl

/-- Claim C3, amended: when `Disjunction(A, B)`'s branch B is attempted
because A failed without any success continuation of A's on the stack —
here A a `Variable` leaf — the store B sees is exactly the entry store, so
no binding made by A is live; and when such an A succeeds, B is never
attempted (the outcome is independent of B).  (Per the counterexample,
when the failure instead arises inside A's success continuation after
A bound a variable, that binding is still live while B runs.) -/
theorem c3_amended (i : Nat) (B B' : Pattern) (v : Value) (k : M Unit)
    (f : Pattern → Value → M Unit) (s : St) :
    ((s.vars i).bound = true → pyEq v (s.vars i).value = false →
        Pattern.unify (.or (.var i) B) v k f s = Pattern.unify B v k f s)
    ∧ ((s.vars i).bound = false →
        Pattern.unify (.or (.var i) B) v k f s
          = Pattern.unify (.or (.var i) B') v k f s) := by
  constructor
  · intro hb hne
    simp [Pattern.unify, hb, hne]
  · intro hb
    simp [Pattern.unify, hb]

/-- Witness for C3 (amended), leaf-variable branch: with the variable
bound to `1`, matching `Or(var, Anything)` against `2` attempts B in the
unchanged entry store. -/
theorem c3_amended_witness :
    Pattern.unify (.or (.var 0) .anything) (.int 2) (logSucc 0) logFail
        { s0 with vars := Function.update s0.vars 0 ⟨true, .int 1⟩ }
      = Pattern.unify .anything (.int 2) (logSucc 0) logFail
        { s0 with vars := Function.update s0.vars 0 ⟨true, .int 1⟩ } :=
  (c3_amended 0 .anything .nothing (.int 2) (logSucc 0) logFail
    { s0 with vars := Function.update s0.vars 0 ⟨true, .int 1⟩ }).1
    rfl (by simp [pyEq])

/-- Claim C4, amended: for a `Variable` unbound at entry, on every exit
path of the success continuation that returns control normally — whether
the continuation recorded success or reported failure — the variable is
unbound again (`bound = false`, `value = None`) when `match` returns.
(Per the counterexample, a fault propagating through the continuation
instead skips `unbind()` and leaves the variable bound.) -/
theorem c4_amended (i : Nat) (v : Value) (k : M Unit)
    (f : Pattern → Value → M Unit) (s t : St)
    (hs : (s.vars i).bound = false)
    (hk : k { s with vars := Function.update s.vars i ⟨true, v⟩ } = (.ok (), t)) :
    Pattern.unify (.var i) v k f s
      = (.ok (), { t with vars := Function.update t.vars i ⟨false, .none⟩ }) := by
  simp [Pattern.unify, hs, hk]

/-- Witness for C4 (amended) at a concrete run: the continuation observes
the binding `7`, and afterwards the variable is unbound with
`value = None`. -/
theorem c4_amended_witness :
    Pattern.unify (.var 0) (.int 7) (logSucc 0) logFail s0
      = (.ok (), { s0 with
          vars := Function.update
            (Function.update s0.vars 0 ⟨true, .int 7⟩) 0 ⟨false, .none⟩
          trace := [.succ ⟨true, .int 7⟩] }) :=
  c4_amended 0 (.int 7) (logSucc 0) logFail s0
    { s0 with
      vars := Function.update s0.vars 0 ⟨true, .int 7⟩
      trace := [.succ ⟨true, .int 7⟩] } rfl rfl

/-- Evaluation of `Variable.unify` on a bound variable. -/
theorem unify_var_bound (i : Nat) (v : Value) (k : M Unit)
    (f : Pattern → Value → M Unit) (s : St) (hb : (s.vars i).bound = true) :
    Pattern.unify (.var i) v k f s =
      if pyEq v (s.vars i).value then k s else f (.var i) v s := by
  cases hpe : pyEq v (s.vars i).value <;> simp [Pattern.unify, hb, hpe]

/-- Evaluation of `Variable.unify` on an unbound variable: bind, run the
continuation, and (only if it returns normally) unbind. -/
theorem unify_var_unbound (i : Nat) (v : Value) (k : M Unit)
    (f : Pattern → Value → M Unit) (s : St) (hb : (s.vars i).bound = false) :
    Pattern.unify (.var i) v k f s =
      match k { s with vars := Function.update s.vars i ⟨true, v⟩ } with
      | (.ok _, s₂) =>
          (.ok (), { s₂ with vars := Function.update s₂.vars i ⟨false, .none⟩ })
      | (.error e, s₂) => (.error e, s₂) := by
  rcases hks : k { s with vars := Function.update s.vars i ⟨true, v⟩ } with ⟨r, s₂⟩
  cases r <;> simp [Pattern.unify, hb, hks]

/-- `VarsOk s s'`: every variable either kept the state it had in `s` or
ended unbound with `value = None`. -/
def VarsOk (s s' : St) : Prop :=
  ∀ i, s'.vars i = s.vars i ∨ s'.vars i = ⟨false, .none⟩

theorem VarsOk.refl (s : St) : VarsOk s s := fun _ => Or.inl rfl

theorem VarsOk.trans {s t u : St} (h1 : VarsOk s t) (h2 : VarsOk t u) :
    VarsOk s u := by
  intro i
  rcases h2 i with h | h
  · rw [h]; exact h1 i
  · exact Or.inr h

/-- A computation is sound when on normal return every variable was either
preserved or left unbound-with-`None`, and any exception it raises is one
the matcher never catches (non-soft). -/
def Sound (m : M α) : Prop :=
  ∀ s, (∀ a s', m s = (.ok a, s') → VarsOk s s') ∧
       (∀ e s', m s = (.error e, s') → e.isSoft = false)

theorem sound_of_run (m : M α)
    (h : ∀ s, ∃ a s', m s = (.ok a, s') ∧ s'.vars = s.vars) : Sound m := by
  intro s
  obtain ⟨a, s', hrun, hv⟩ := h s
  constructor
  · intro b s₂ hb
    rw [hrun] at hb
    cases hb
    exact fun i => Or.inl (congrFun hv i)
  · intro e s₂ he
    rw [hrun] at he
    cases he

theorem sound_pure (a : α) : Sound (pure a : M α) :=
  sound_of_run _ (fun s => ⟨a, s, rfl, rfl⟩)

theorem Sound.bindM {m : M α} {g : α → M β} (hm : Sound m)
    (hg : ∀ a, Sound (g a)) : Sound (m >>= g) := by
  intro s
  constructor
  · intro b s₂ h
    rw [run_bind] at h
    rcases hms : m s with ⟨r, s₁⟩
    rw [hms] at h
    cases r with
    | ok a => exact VarsOk.trans ((hm s).1 a s₁ hms) ((hg a s₁).1 b s₂ h)
    | error e => cases h
  · intro e s₂ h
    rw [run_bind] at h
    rcases hms : m s with ⟨r, s₁⟩
    rw [hms] at h
    cases r with
    | ok a => exact (hg a s₁).2 e s₂ h
    | error e' =>
        have he : e' = e := by injection h with h1 h2; injection h1
        subst he
        exact (hm s).2 e' s₁ hms

theorem sound_getVar (i : Nat) : Sound (getVar i) :=
  sound_of_run _ (fun s => ⟨s.vars i, s, rfl, rfl⟩)

theorem sound_newCell : Sound newCell :=
  sound_of_run _ (fun s => ⟨s.nextCell, _, rfl, rfl⟩)

theorem sound_setCell (c : Nat) (b : Bool) : Sound (setCell c b) :=
  sound_of_run _ (fun s => ⟨(), _, rfl, rfl⟩)

theorem sound_readCell (c : Nat) : Sound (readCell c) :=
  sound_of_run _ (fun s => ⟨s.cells c, s, rfl, rfl⟩)

theorem sound_pushTrace (e : Entry) : Sound (pushTrace e) :=
  sound_of_run _ (fun s => ⟨(), _, rfl, rfl⟩)

theorem sound_fail_silent (q : Pattern) (x : Value) : Sound (fail_silent q x) :=
  sound_pure ()

theorem sound_logSucc (i : Nat) : Sound (logSucc i) :=
  sound_of_run _ (fun s => ⟨(), _, rfl, rfl⟩)

theorem sound_logFail (q : Pattern) (x : Value) : Sound (logFail q x) :=
  sound_of_run _ (fun s => ⟨(), _, rfl, rfl⟩)

/-- Iterating a non-iterable raises `TypeError`, which the matcher never
catches. -/
theorem elementsE_error {v : Value} {e : PyErr} (h : elementsE v = .error e) :
    e.isSoft = false := by
  cases v <;> simp [elementsE] at h <;> simp [← h, PyErr.isSoft]

theorem sound_elements (v : Value) : Sound (liftE (elementsE v) : M (List Value)) := by
  intro s
  constructor
  · intro a s' h
    rw [run_liftE] at h
    rcases hv : elementsE v with w | e <;> rw [hv] at h <;> cases h
    exact VarsOk.refl s
  · intro e s' h
    rw [run_liftE] at h
    rcases hv : elementsE v with w | e' <;> rw [hv] at h <;> cases h
    exact elementsE_error hv

theorem Sound.catchSoftM {m h : M Unit} (hm : Sound m) (hh : Sound h) :
    Sound (catchSoft m h) := by
  intro s
  constructor
  · intro a s₂ hr
    unfold catchSoft at hr
    rcases hms : m s with ⟨r, s₁⟩
    rw [hms] at hr
    cases r with
    | ok b =>
        have hr' : ((Except.ok b : Except PyErr Unit), s₁)
            = ((Except.ok a : Except PyErr Unit), s₂) := hr
        cases hr'
        exact (hm s).1 _ _ hms
    | error e =>
        have hns : e.isSoft = false := (hm s).2 e s₁ hms
        have hr' : (if e.isSoft then h s₁ else (Except.error e, s₁))
            = ((Except.ok a : Except PyErr Unit), s₂) := hr
        rw [hns] at hr'
        simp at hr'
  · intro e s₂ hr
    unfold catchSoft at hr
    rcases hms : m s with ⟨r, s₁⟩
    rw [hms] at hr
    cases r with
    | ok b =>
        have hr' : ((Except.ok b : Except PyErr Unit), s₁)
            = ((Except.error e : Except PyErr Unit), s₂) := hr
        cases hr'
    | error e' =>
        have hns : e'.isSoft = false := (hm s).2 e' s₁ hms
        have hr' : (if e'.isSoft then h s₁ else (Except.error e', s₁))
            = ((Except.error e : Except PyErr Unit), s₂) := hr
        rw [hns] at hr'
        simp at hr'
        obtain ⟨he, -⟩ := hr'
        exact he ▸ hns

theorem sound_anyLoop (u : Value → M Unit → (Pattern → Value → M Unit) → M Unit)
    (hu : ∀ w k' f', Sound k' → (∀ q x, Sound (f' q x)) → Sound (u w k' f'))
    (oo : Bool) (c : Nat) (cont : M Unit) (hc : Sound cont) :
    ∀ es : List Value, Sound (anyLoop u oo c cont es) := by
  intro es
  induction es with
  | nil => exact sound_pure ()
  | cons e rest ih =>
      refine Sound.bindM (hu e cont fail_silent hc sound_fail_silent) (fun _ => ?_)
      refine Sound.bindM (sound_readCell c) (fun m => ?_)
      rcases Bool.eq_false_or_eq_true (oo && m) with hm | hm <;> simp only [hm]
      · simpa using sound_pure ()
      · simpa using ih

/-- Patterns that avoid the broken `MatchAll` quantifier. -/
def noMatchAll : Pattern → Bool
  | .anything => true
  | .nothing => true
  | .constant _ => true
  | .var _ => true
  | .and a b => noMatchAll a && noMatchAll b
  | .or a b => noMatchAll a && noMatchAll b
  | .matchP _ p => noMatchAll p
  | .ensure _ p => noMatchAll p
  | .matchAny _ _ p => noMatchAll p
  | .matchAll _ => false

/-- The backtracking invariant of the matcher: with continuations that are
`Sound` (no variable mutation of their own, no raisable faults being
swallowed) and a pattern avoiding the broken `MatchAll`, a `unify` call
that returns normally leaves every variable either untouched or unbound
with `value = None`, and any exception it lets escape is one the matcher
never catches. -/
theorem unify_sound : ∀ p : Pattern, noMatchAll p = true →
    ∀ (v : Value) (k : M Unit) (f : Pattern → Value → M Unit),
      Sound k → (∀ q w, Sound (f q w)) → Sound (Pattern.unify p v k f) := by
  intro p
  induction p with
  | anything =>
      intro _ v k f hk hf
      exact hk
  | nothing =>
      intro _ v k f hk hf
      exact hf .nothing v
  | constant c =>
      intro _ v k f hk hf
      rcases Bool.eq_false_or_eq_true (pyEq v c) with hc | hc <;>
        simp only [Pattern.unify, hc]
      · simpa using hk
      · simpa using hf (.constant c) v
  | var i =>
      intro _ v k f hk hf
      intro s
      rcases Bool.eq_false_or_eq_true ((s.vars i).bound) with hb | hb
      · -- bound: no state transition on this path
        constructor
        · intro a s₂ h
          rw [unify_var_bound i v k f s hb] at h
          rcases Bool.eq_false_or_eq_true (pyEq v (s.vars i).value) with hpe | hpe <;>
            rw [hpe] at h
          · exact (hk s).1 a s₂ (by simpa using h)
          · exact (hf (.var i) v s).1 a s₂ (by simpa using h)
        · intro e s₂ h
          rw [unify_var_bound i v k f s hb] at h
          rcases Bool.eq_false_or_eq_true (pyEq v (s.vars i).value) with hpe | hpe <;>
            rw [hpe] at h
          · exact (hk s).2 e s₂ (by simpa using h)
          · exact (hf (.var i) v s).2 e s₂ (by simpa using h)
      · -- unbound: bind, continuation, unbind
        constructor
        · intro a s₂ h
          rw [unify_var_unbound i v k f s hb] at h
          rcases hks : k { s with vars := Function.update s.vars i ⟨true, v⟩ }
            with ⟨r, s₁⟩
          rw [hks] at h
          cases r with
          | ok u =>
              cases h
              intro j
              by_cases hj : j = i
              · subst hj
                exact Or.inr (by simp)
              · have h1 := ((hk _).1 u s₁ hks) j
                simp only [Function.update, dif_neg hj]
                rcases h1 with h1 | h1
                · rw [h1]
                  simp [Function.update, hj]
                · exact Or.inr h1
          | error e => cases h
        · intro e s₂ h
          rw [unify_var_unbound i v k f s hb] at h
          rcases hks : k { s with vars := Function.update s.vars i ⟨true, v⟩ }
            with ⟨r, s₁⟩
          rw [hks] at h
          cases r with
          | ok u => cases h
          | error e' =>
              have he : e' = e := by injection h with h1 h2; injection h1
              subst he
              exact (hk _).2 _ _ hks
  | and a b iha ihb =>
      intro hp v k f hk hf
      have hp' : noMatchAll a = true ∧ noMatchAll b = true := by
        simpa [noMatchAll, Bool.and_eq_true] using hp
      exact iha hp'.1 v (Pattern.unify b v k f) f (ihb hp'.2 v k f hk hf) hf
  | or a b iha ihb =>
      intro hp v k f hk hf
      have hp' : noMatchAll a = true ∧ noMatchAll b = true := by
        simpa [noMatchAll, Bool.and_eq_true] using hp
      exact iha hp'.1 v k _ hk (fun q w => ihb hp'.2 v k f hk hf)
  | matchP g into ih =>
      intro hp v k f hk hf
      have hinto : noMatchAll into = true := by simpa [noMatchAll] using hp
      show Sound (catchSoft (liftE (g v) >>= fun w => Pattern.unify into w k f)
        (f (.matchP g into) v))
      rcases hg : g v with e | w
      · -- the extractor raised e
        have hbody : (liftE (Except.error e : Except PyErr Value)
              >>= fun w => Pattern.unify into w k f) = throwE e := by
          funext s
          simp [throwE]
        rw [hbody]
        rcases Bool.eq_false_or_eq_true e.isSoft with hsoft | hsoft
        · have hcatch : catchSoft (throwE e) (f (.matchP g into) v)
              = f (.matchP g into) v := by
            funext s
            simp [catchSoft, throwE, hsoft]
          rw [hcatch]
          exact hf _ _
        · intro s
          constructor
          · intro a s' h
            simp [catchSoft, throwE, hsoft] at h
          · intro e' s' h
            simp [catchSoft, throwE, hsoft] at h
            exact h.1 ▸ hsoft
      · -- the extractor returned w
        have hbody : (liftE (Except.ok w : Except PyErr Value)
              >>= fun w' => Pattern.unify into w' k f) = Pattern.unify into w k f := by
          funext s
          simp
        rw [hbody]
        exact Sound.catchSoftM (ih hinto w k f hk hf) (hf _ _)
  | ensure q into ih =>
      intro _ v k f hk hf
      rcases Bool.eq_false_or_eq_true (q v) with hc | hc <;>
        simp only [Pattern.unify, hc]
      · simpa using hk
      · simpa using hf (.ensure q into) v
  | matchAny me oo into ih =>
      intro hp v k f hk hf
      have hinto : noMatchAll into = true := by simpa [noMatchAll] using hp
      refine Sound.bindM sound_newCell (fun c => ?_)
      refine Sound.bindM (sound_elements v) (fun es => ?_)
      refine Sound.bindM
        (sound_anyLoop _ (fun w k' f' hk' hf' => ih hinto w k' f' hk' hf') oo c _
          (Sound.bindM (sound_setCell c true) (fun _ => hk)) es) (fun _ => ?_)
      cases me
      · exact sound_pure ()
      · refine Sound.bindM (sound_readCell c) (fun m => ?_)
        cases m
        · exact hf _ _
        · exact sound_pure ()
  | matchAll into ih =>
      intro hp
      simp [noMatchAll] at hp

/-- Claim C10, amended: for every variable unbound (with `value = None`,
as construction and `unbind` leave it) before a top-level match call whose
pattern avoids the broken `MatchAll` and whose continuations are `Sound`
(they neither mutate variables nor raise), if the call returns normally
then the variable is again unbound with its `value` field reset to `None`
— not merely `bound = false`.  (Per the counterexample, a fault swallowed
mid-match by `Match.unify`'s `except` clause can instead leave a stale
binding behind even though the call returns normally.) -/
theorem c10_amended (p : Pattern) (hp : noMatchAll p = true) (v : Value)
    (k : M Unit) (hk : Sound k) (f : Pattern → Value → M Unit)
    (hf : ∀ q w, Sound (f q w)) (i : Nat) (s s' : St)
    (hi : s.vars i = ⟨false, .none⟩)
    (hrun : Pattern.unify p v k f s = (.ok (), s')) :
    s'.vars i = ⟨false, .none⟩ := by
  rcases (unify_sound p hp v k f hk hf s).1 () s' hrun i with h | h
  · rw [h, hi]
  · exact h

/-- Witness for C10 (amended) at a concrete run of `var & Anything` on
`3`. -/
theorem c10_amended_witness :
    ({ s0 with
       vars := Function.update (Function.update s0.vars 0 ⟨true, .int 3⟩) 0 ⟨false, .none⟩
       trace := [.succ ⟨true, .int 3⟩] } : St).vars 0 = ⟨false, .none⟩ :=
  c10_amended (.and (.var 0) .anything) rfl (.int 3) (logSucc 0) (sound_logSucc 0)
    logFail sound_logFail 0 s0
    { s0 with
      vars := Function.update (Function.update s0.vars 0 ⟨true, .int 3⟩) 0 ⟨false, .none⟩
      trace := [.succ ⟨true, .int 3⟩] } rfl rfl

theorem cells_collapse (g : Nat → Bool) :
    Function.update (Function.update
      (Function.update (Function.update g 1 true) 0 true) 1 true) 0 true
    = Function.update (Function.update g 1 true) 0 true := by
  funext x
  by_cases h0 : x = 0
  · simp [Function.update, h0]
  · by_cases h1 : x = 1 <;> simp [Function.update, h0, h1]

theorem vars0_reset (b : VarState) :
    Function.update (Function.update
      (fun _ : Nat => (⟨false, .none⟩ : VarState)) 0 b) 0 ⟨false, .none⟩
    = fun _ : Nat => (⟨false, .none⟩ : VarState) := by
  funext x
  by_cases h0 : x = 0 <;> simp [Function.update, h0]

/-- Run of the `MatchAny` element loop for the sub-pattern `Each ** var`
(cell 1 the inner `matched_once`, cell 0 the outer one): every element is
bound to the variable, the wrapped continuations fire once per element in
iteration order, and the variable is unbound again after each element. -/
theorem c9_loop (le : List Int) (t : List Entry) (g : Nat → Bool) :
    anyLoop (Pattern.unify (.var 0)) false 1
      (do setCell 1 true; setCell 0 true; logSucc 0) (le.map .int)
      (St.mk (fun _ => ⟨false, .none⟩) g 2 t)
    = (.ok (), St.mk (fun _ => ⟨false, .none⟩)
        (if le.isEmpty then g
         else Function.update (Function.update g 1 true) 0 true)
        2 (t ++ le.map fun m => .succ ⟨true, .int m⟩)) := by
  induction le generalizing t g with
  | nil => simp [anyLoop]
  | cons m rest ih =>
      have hstep : Pattern.unify (.var 0) (.int m)
          (do setCell 1 true; setCell 0 true; logSucc 0) fail_silent
          (St.mk (fun _ => ⟨false, .none⟩) g 2 t)
        = (.ok (), St.mk
            (Function.update (Function.update
              (fun _ => ⟨false, .none⟩) 0 ⟨true, .int m⟩) 0 ⟨false, .none⟩)
            (Function.update (Function.update g 1 true) 0 true) 2
            (t ++ [.succ ⟨true, .int m⟩])) := rfl
      simp only [List.map_cons, anyLoop, run_bind, hstep, run_readCell,
        Bool.false_and, vars0_reset, Bool.false_eq_true, if_false]
      rw [ih]
      cases rest with
      | nil => simp
      | cons r rs => simp [cells_collapse]

theorem ff_update0 :
    Function.update (fun _ : Nat => false) 0 false = fun _ : Nat => false := by
  funext x
  by_cases h0 : x = 0 <;> simp [Function.update, h0]

/-- Run of `Each ** var` (the sub-pattern of the C9 scenario) on a
non-empty element: its success continuation fires once per inner element,
each time with the variable bound to that element. -/
theorem c9_inner (n : Int) (le : List Int) (g : Nat → Bool) (t : List Entry) :
    Pattern.unify (.matchAny false false (.var 0)) (.list ((n :: le).map .int))
      (do setCell 0 true; logSucc 0) fail_silent
      (St.mk (fun _ => ⟨false, .none⟩) g 1 t)
    = (.ok (), St.mk (fun _ => ⟨false, .none⟩)
        (Function.update (Function.update g 1 true) 0 true) 2
        (t ++ (n :: le).map fun m => .succ ⟨true, .int m⟩)) := by
  show (anyLoop (Pattern.unify (.var 0)) false 1
      (do setCell 1 true; setCell 0 true; logSucc 0) ((n :: le).map .int)
      >>= fun _ => pure ())
      (St.mk (fun _ => ⟨false, .none⟩) (Function.update g 1 false) 2 t) = _
  rw [run_bind, c9_loop, Function.update_idem]
  simp

/-- Claim C9: in `MatchAny` with `only_once = true` (`First`), iteration
is cut only between elements.  Matching `First ** (Each ** var)` against
`[[n, …], rest…]`: the sub-pattern's match for the single first element
invokes its success continuation once per inner element, so the outer
`onSuccess` fires that many times — bound to each inner element in order —
before iteration stops; the remaining elements `rest` never influence the
outcome, and `only_once` does not limit success invocations within the one
element. -/
theorem c9_first_cuts_between_elements (n : Int) (le : List Int) (rest : List Value) :
    Pattern.unify (.matchAny true true (.matchAny false false (.var 0)))
      (.list (.list ((n :: le).map .int) :: rest)) (logSucc 0) logFail s0
    = (.ok (), St.mk (fun _ => ⟨false, .none⟩)
        (Function.update (Function.update (fun _ => false) 1 true) 0 true) 2
        ((n :: le).map fun m => .succ ⟨true, .int m⟩)) := by
  show (anyLoop (Pattern.unify (.matchAny false false (.var 0))) true 0
      (do setCell 0 true; logSucc 0) (.list ((n :: le).map .int) :: rest)
      >>= fun _ => (do
        let m ← readCell 0
        if m then pure ()
        else (logFail (.matchAny true true (.matchAny false false (.var 0)))
          (.list (.list ((n :: le).map .int) :: rest)))))
      (St.mk (fun _ => ⟨false, .none⟩)
        (Function.update (fun _ => false) 0 false) 1 []) = _
  rw [ff_update0]
  simp only [anyLoop, run_bind, c9_inner, run_readCell]
  simp [Function.update]
